import Mathlib

/-!
# Verification of the Inventory service core

Shallow embedding of the inventory CRUD service
(`src/service/models.py`, `src/service/routes.py`) and proofs of the
spec's testable properties.

The payload boundary (Flask `request.get_json()`) delivers Python
objects decoded from JSON; `JValue` models those. Stored rows
(`Row`) model committed database records of the single `inventory`
table. Write operations take an explicit `commitOk` flag modelling
whether the persistence layer's commit succeeds, mirroring the
`try: ... db.session.commit() except: db.session.rollback(); raise`
pattern of `models.py`.
-/

namespace Inv

/-- Enumeration of valid Inventory conditions (`models.py`, class `Condition`). -/
inductive Condition
  | NEW
  | OPENBOX
  | USED
deriving DecidableEq, Repr

/-- Enumeration of valid Inventory stock levels (`models.py`, class `StockLevel`). -/
inductive StockLevel
  | IN_STOCK
  | LOW_STOCK
  | OUT_OF_STOCK
deriving DecidableEq, Repr

/-- The `.value` of a `Condition` member (each member's value is its name). -/
def Condition.value : Condition → String
  | .NEW => "NEW"
  | .OPENBOX => "OPENBOX"
  | .USED => "USED"

/-- The `.value` of a `StockLevel` member. -/
def StockLevel.value : StockLevel → String
  | .IN_STOCK => "IN_STOCK"
  | .LOW_STOCK => "LOW_STOCK"
  | .OUT_OF_STOCK => "OUT_OF_STOCK"

/-- A JSON-decoded Python value as delivered by `request.get_json()`. -/
inductive JValue
  | null
  | bool (b : Bool)
  | int (n : Int)
  | str (s : String)
  | arr (elems : List JValue)
  | obj (fields : List (String × JValue))

/-- The Python enum constructor `Condition(value)`: succeeds exactly when
`value` equals one of the member values, else raises `ValueError`
(modelled as `none`). -/
def Condition.fromValue : JValue → Option Condition
  | .str s =>
      if s = "NEW" then some .NEW
      else if s = "OPENBOX" then some .OPENBOX
      else if s = "USED" then some .USED
      else none
  | _ => none

/-- The Python enum constructor `StockLevel(value)`. -/
def StockLevel.fromValue : JValue → Option StockLevel
  | .str s =>
      if s = "IN_STOCK" then some .IN_STOCK
      else if s = "LOW_STOCK" then some .LOW_STOCK
      else if s = "OUT_OF_STOCK" then some .OUT_OF_STOCK
      else none
  | _ => none

/-- Outcome of the Python subscript `data[key]`: the value, a `KeyError`
carrying the key, or a `TypeError` when `data` is not a mapping. -/
inductive GetResult
  | ok (v : JValue)
  | keyError (k : String)
  | typeError

/-- Model of `data[key]` for a string key: succeeds only on mappings; raises
`KeyError(key)` when the key is absent and `TypeError` on every
non-mapping value (string, list, int, bool, null). -/
def JValue.getItem : JValue → String → GetResult
  | .obj fields, k =>
      match fields.lookup k with
      | some v => .ok v
      | none => .keyError k
  | _, _ => .typeError

/-- Whether a value is a mapping (a Python `dict`). -/
def JValue.isObj : JValue → Bool
  | .obj _ => true
  | _ => false

/-- Python's `isinstance(v, int)`. Note that Python `bool` is a subclass
of `int`, so Boolean payload values pass this check. -/
def JValue.isPyInt : JValue → Bool
  | .int _ => true
  | .bool _ => true
  | _ => false

/-- Whether a value is a genuine JSON integer (not a Boolean). -/
def JValue.isIntValue : JValue → Bool
  | .int _ => true
  | _ => false

/-- The integer content of a value passing `isPyInt` (Python `True` and
`False` are the integers 1 and 0). -/
def JValue.pyIntVal : JValue → Int
  | .int n => n
  | .bool b => if b then 1 else 0
  | _ => 0

/-- Python's `str(type(v))`, used in the bad-quantity error message. -/
def JValue.typeName : JValue → String
  | .null => "<class 'NoneType'>"
  | .bool _ => "<class 'bool'>"
  | .int _ => "<class 'int'>"
  | .str _ => "<class 'str'>"
  | .arr _ => "<class 'list'>"
  | .obj _ => "<class 'dict'>"

/-- A rough `f"{v}"` rendering, used only inside error messages. -/
def JValue.pyStr : JValue → String
  | .null => "None"
  | .bool b => if b then "True" else "False"
  | .int n => toString n
  | .str s => s
  | .arr _ => "[...]"
  | .obj _ => "\x7b...\x7d"

/-- The in-memory `Inventory` model object of `models.py` before it is
committed: `id` is `None` until the persistence layer assigns one, and
`name` holds whatever payload value `deserialize` stored into it (the
code does not type-check `name`). -/
structure PyInventory where
  id : Option Int := none
  name : JValue := .null
  quantity : Int := 0
  condition : Condition := .NEW
  stock_level : StockLevel := .IN_STOCK

/-- Model of `Inventory.serialize` (`models.py` lines 125-133): total, emits `id`,
`name`, `quantity` and the string values of the two enum fields. -/
def PyInventory.serialize (self : PyInventory) : JValue :=
  .obj [
    ("id", match self.id with | some i => .int i | none => .null),
    ("name", self.name),
    ("quantity", .int self.quantity),
    ("condition", .str self.condition.value),
    ("stock_level", .str self.stock_level.value)]

/-- Model of `Inventory.deserialize` (`models.py` lines 135-172). Looks up
`name`, then `quantity` (must satisfy `isinstance(_, int)`), then
`condition` and `stock_level` (must construct as enum members,
`ValueError` converted to `DataValidationError`); a `KeyError`
becomes "Invalid Inventory: missing <key>" and a `TypeError`
(non-mapping payload) becomes the bad-data message. -/
def PyInventory.deserialize (self : PyInventory) (data : JValue) :
    Except String PyInventory :=
  match data.getItem "name" with
  | .typeError =>
      .error "Invalid Inventory: body of request contained bad or no data"
  | .keyError k => .error ("Invalid Inventory: missing " ++ k)
  | .ok nameV =>
    match data.getItem "quantity" with
    | .typeError =>
        .error "Invalid Inventory: body of request contained bad or no data"
    | .keyError k => .error ("Invalid Inventory: missing " ++ k)
    | .ok qV =>
      if qV.isPyInt then
        match data.getItem "condition" with
        | .typeError =>
            .error "Invalid Inventory: body of request contained bad or no data"
        | .keyError k => .error ("Invalid Inventory: missing " ++ k)
        | .ok cV =>
          match Condition.fromValue cV with
          | none => .error ("Invalid value for Condition: " ++ cV.pyStr)
          | some c =>
            match data.getItem "stock_level" with
            | .typeError =>
                .error
                  "Invalid Inventory: body of request contained bad or no data"
            | .keyError k => .error ("Invalid Inventory: missing " ++ k)
            | .ok sV =>
              match StockLevel.fromValue sV with
              | none => .error ("Invalid value for StockLevel: " ++ sV.pyStr)
              | some sl =>
                .ok { self with
                  name := nameV, quantity := qV.pyIntVal,
                  condition := c, stock_level := sl }
      else
        .error ("Invalid type for int [quantity]: " ++ qV.typeName)

/-- A committed row of the `inventory` table (`models.py` lines 75-81):
`id` integer primary key assigned by the database, `name` text,
`quantity` integer, `condition` and `stock_level` enum columns. -/
structure Row where
  id : Int
  name : String
  quantity : Int
  condition : Condition
  stock_level : StockLevel
deriving DecidableEq, Repr

/-- Model of `Inventory.serialize` applied to a committed row. -/
def Row.serialize (r : Row) : JValue :=
  .obj [
    ("id", .int r.id),
    ("name", .str r.name),
    ("quantity", .int r.quantity),
    ("condition", .str r.condition.value),
    ("stock_level", .str r.stock_level.value)]

/-- The database state: the rows of the single table, plus the next
primary-key value the persistence layer will assign. -/
structure DB where
  rows : List Row
  nextId : Int
deriving Repr

/-- Model of `Inventory.find(by_id)` (`models.py` lines 184-188):
`session.get` by primary key, `None` when absent. -/
def DB.find (db : DB) (by_id : Int) : Option Row :=
  db.rows.find? (fun r => r.id == by_id)

/-- Model of `Inventory.all()` (`models.py` lines 178-182). -/
def DB.all (db : DB) : List Row :=
  db.rows

/-- Model of `Inventory.find_by_name(name)` (`models.py` lines 190-198):
`query.filter(cls.name == name)`. -/
def DB.find_by_name (db : DB) (name : String) : List Row :=
  db.rows.filter (fun r => r.name == name)

/-- Model of `Inventory.find_by_condition(condition)` (`models.py` lines 200-208):
`query.filter(cls.condition == condition)`; the route passes the raw
query-string value, which the enum column matches against its stored
string (member name = member value for this enum). -/
def DB.find_by_condition (db : DB) (condition : String) : List Row :=
  db.rows.filter (fun r => r.condition.value == condition)

/-- Model of `Inventory.find_by_stock_level(stock_level)` (`models.py` lines 210-218). -/
def DB.find_by_stock_level (db : DB) (stock_level : String) : List Row :=
  db.rows.filter (fun r => r.stock_level.value == stock_level)

/-- Modelled from the spec: `Inventory.find_by_quantity_range(min, max)`
is called by the list route (`routes.py` line 253) but is not defined in
`src/service/models.py`; the spec states it returns the items with
`min ≤ quantity ≤ max`. An upper bound of `none` models the call-site
default `float("inf")`, imposing no upper constraint. -/
def DB.find_by_quantity_range (db : DB) (minq : Int) (maxq : Option Int) :
    List Row :=
  db.rows.filter (fun r => minq ≤ r.quantity && maxq.all (fun m => r.quantity ≤ m))

/-- Result of a write operation: the database state afterwards and, when
the operation raised `DataValidationError`, its message. A failed
commit rolls the session back, so `db` is then the pre-call state. -/
structure WriteOutcome where
  db : DB
  raised : Option String
deriving Repr

/-- The message of the `DataValidationError` re-raised from a failed
commit (`raise DataValidationError(e)`). -/
def dbErrorMsg : String := "DataValidationError"

/-- Model of `Inventory.create` (`models.py` lines 86-98): clears `id`, adds the
record, commits; the persistence layer assigns the next id. On commit
failure the session is rolled back and `DataValidationError` raised. -/
def DB.create (db : DB) (item : Row) (commitOk : Bool) : WriteOutcome :=
  if commitOk then
    ⟨⟨db.rows ++ [{ item with id := db.nextId }], db.nextId + 1⟩, none⟩
  else
    ⟨db, some dbErrorMsg⟩

/-- Model of `Inventory.update` (`models.py` lines 100-112): raises when `self.id`
is falsy (`None` or `0`), otherwise commits the mutated row; on commit
failure the session is rolled back and `DataValidationError` raised. -/
def DB.update (db : DB) (item : Row) (commitOk : Bool) : WriteOutcome :=
  if item.id == 0 then
    ⟨db, some "Update called with empty ID field"⟩
  else if commitOk then
    ⟨{ db with rows := db.rows.map (fun r => if r.id == item.id then item else r) },
      none⟩
  else
    ⟨db, some dbErrorMsg⟩

/-- Model of `Inventory.delete` (`models.py` lines 114-123): deletes the row and
commits; on failure the session is rolled back and
`DataValidationError` raised. -/
def DB.delete (db : DB) (item : Row) (commitOk : Bool) : WriteOutcome :=
  if commitOk then
    ⟨{ db with rows := db.rows.filter (fun r => !(r.id == item.id)) }, none⟩
  else
    ⟨db, some dbErrorMsg⟩

/-- An HTTP reply from a route handler: a body with a status code, an
`abort(code, msg)`, or an exception that escaped the handler. -/
inductive Reply
  | ok (body : JValue) (code : Nat)
  | aborted (code : Nat)
  | raised (msg : String)

/-- The status code of a reply (`abort` and escaped exceptions produce
their error codes; an escaped exception surfaces as a server error). -/
def Reply.code : Reply → Nat
  | .ok _ c => c
  | .aborted c => c
  | .raised _ => 500

/-- Model of `RestockResource.put` (`routes.py` lines 276-307) after the integer
parse of the path segment: find the item (404 when absent), guard
`new_quantity < 0` (400, nothing written), otherwise set the new
quantity, commit via `update`, and return the serialized record. -/
def restockPut (db : DB) (inventory_id : Int) (quantity : Int)
    (commitOk : Bool) : Reply × DB :=
  match db.find inventory_id with
  | none => (.aborted 404, db)
  | some inv =>
    let new_quantity := inv.quantity + quantity
    if new_quantity < 0 then
      (.aborted 400, db)
    else
      let inv2 := { inv with quantity := new_quantity }
      let w := db.update inv2 commitOk
      match w.raised with
      | some e => (.raised e, w.db)
      | none => (.ok inv2.serialize 200, w.db)

/-- Model of `InventoryResource.delete` (`routes.py` lines 176-189): find the
item, delete it when present, and always return `204 NO_CONTENT`. -/
def deleteRoute (db : DB) (inventory_id : Int) (commitOk : Bool) :
    Reply × DB :=
  match db.find inventory_id with
  | some inv =>
    let w := db.delete inv commitOk
    match w.raised with
    | some e => (.raised e, w.db)
    | none => (.ok (.str "") 204, w.db)
  | none => (.ok (.str "") 204, db)

/-- The query-string parameters of the list route; `none` is an absent
parameter (`request.args.get` returns `None`). -/
structure ListParams where
  name : Option String := none
  quantity_min : Option String := none
  quantity_max : Option String := none
  condition : Option String := none
  stock_level : Option String := none

/-- Python truthiness of an optional string: `None` and `""` are falsy. -/
def truthy : Option String → Bool
  | none => false
  | some s => !(s == "")

/-- Digit run of a Python integer literal after its first digit: decimal
digits with single underscores allowed between digits only (no leading,
trailing or doubled underscore). -/
def pyDigitsAux : List Char → Nat → Option Nat
  | [], acc => some acc
  | '_' :: c :: rest, acc =>
      if c.isDigit then pyDigitsAux rest (acc * 10 + (c.toNat - 48)) else none
  | '_' :: [], _ => none
  | c :: rest, acc =>
      if c.isDigit then pyDigitsAux rest (acc * 10 + (c.toNat - 48)) else none

/-- Unsigned part of a Python integer literal: at least one digit,
then `pyDigitsAux`. -/
def pyIntCore : List Char → Option Nat
  | [] => none
  | c :: rest =>
      if c.isDigit then pyDigitsAux rest (c.toNat - 48) else none

/-- Leading and trailing whitespace removed, as Python `int` strips it. -/
def pyStrip (cs : List Char) : List Char :=
  ((cs.dropWhile Char.isWhitespace).reverse.dropWhile Char.isWhitespace).reverse

/-- Model of Python `int(s)` on a string (ASCII form): surrounding
whitespace is stripped, an optional `+`/`-` sign precedes decimal
digits with single underscores allowed between digits; `none` models
an uncaught `ValueError`. -/
def pyInt (s : String) : Option Int :=
  match pyStrip s.toList with
  | '+' :: rest => (pyIntCore rest).map (fun n => (n : Int))
  | '-' :: rest => (pyIntCore rest).map (fun n => -(n : Int))
  | t => (pyIntCore t).map (fun n => (n : Int))

/-- Model of `InventoryCollection.get` (`routes.py` lines 231-265): dispatches on
the first truthy parameter in the order name, quantity range,
condition, stock level; with none of them, lists everything. `none`
models an uncaught `ValueError` from `int()` (a server error). -/
def listRoute (db : DB) (p : ListParams) : Option (List Row) :=
  if truthy p.name then
    some (db.find_by_name (p.name.getD ""))
  else if truthy p.quantity_min || truthy p.quantity_max then
    let lo : Option Int :=
      if truthy p.quantity_min then pyInt (p.quantity_min.getD "") else some 0
    let hi : Option (Option Int) :=
      if truthy p.quantity_max then (pyInt (p.quantity_max.getD "")).map some
      else some none
    match lo, hi with
    | some l, some h => some (db.find_by_quantity_range l h)
    | _, _ => none
  else if truthy p.condition then
    some (db.find_by_condition (p.condition.getD ""))
  else if truthy p.stock_level then
    some (db.find_by_stock_level (p.stock_level.getD ""))
  else
    some db.all

/-! ## Helper lemmas -/

/-- Two conditions with the same stored string are the same member. -/
lemma condition_value_inj {a b : Condition} (h : a.value = b.value) : a = b := by
  cases a <;> cases b <;> simp [Condition.value] at h ⊢

/-- Two stock levels with the same stored string are the same member. -/
lemma stock_level_value_inj {a b : StockLevel} (h : a.value = b.value) : a = b := by
  cases a <;> cases b <;> simp [StockLevel.value] at h ⊢

/-- A value accepted by the `Condition` constructor is the string value
of the member it yields. -/
lemma condition_fromValue_str {v : JValue} {c : Condition}
    (h : Condition.fromValue v = some c) : v = .str c.value := by
  cases v <;> simp [Condition.fromValue] at h
  case str s =>
    split at h
    next h1 => subst h1; cases h; rfl
    next =>
      split at h
      next h2 => subst h2; cases h; rfl
      next =>
        split at h
        next h3 => subst h3; cases h; rfl
        next => simp at h

/-- A value accepted by the `StockLevel` constructor is the string value
of the member it yields. -/
lemma stock_level_fromValue_str {v : JValue} {sl : StockLevel}
    (h : StockLevel.fromValue v = some sl) : v = .str sl.value := by
  cases v <;> simp [StockLevel.fromValue] at h
  case str s =>
    split at h
    next h1 => subst h1; cases h; rfl
    next =>
      split at h
      next h2 => subst h2; cases h; rfl
      next =>
        split at h
        next h3 => subst h3; cases h; rfl
        next => simp at h

/-- Replacing the row found by an id lookup with a row carrying the
same id leaves it the row found by that lookup. -/
lemma find?_map_replace (rows : List Row) (i : Int) (row new : Row)
    (hfind : rows.find? (fun r => r.id == i) = some row)
    (hid : new.id = row.id) :
    (rows.map (fun r => if r.id == row.id then new else r)).find?
      (fun r => r.id == i) = some new := by
  have hrow : row.id = i := by simpa using List.find?_some hfind
  induction rows with
  | nil => simp at hfind
  | cons a t ih =>
    by_cases ha : (a.id == i) = true
    · rw [@List.find?_cons_of_pos Row (fun r => r.id == i) a t ha] at hfind
      cases hfind
      simp only [List.map_cons]
      rw [if_pos (show (row.id == row.id) = true by simp)]
      exact @List.find?_cons_of_pos Row (fun r => r.id == i) new _ (by simpa [hid] using ha)
    · rw [@List.find?_cons_of_neg Row (fun r => r.id == i) a t ha] at hfind
      have hane : ¬(a.id = row.id) := by
        rw [hrow]
        simpa using ha
      simp only [List.map_cons]
      rw [if_neg (by simpa using hane)]
      rw [@List.find?_cons_of_neg Row (fun r => r.id == i) a _ ha]
      exact ih hfind

/-- After removing every row with the looked-up id, the lookup misses. -/
lemma find?_filter_id_none (rows : List Row) (i : Int) :
    (rows.filter (fun r => !(r.id == i))).find? (fun r => r.id == i) = none := by
  rw [List.find?_eq_none]
  intro a ha
  have := (List.mem_filter.mp ha).2
  simpa using this

/-! ## Sample data shared by the witness theorems -/

/-- A sample committed row. -/
def sampleRow : Row :=
  { id := 1, name := "Widget", quantity := 10,
    condition := .NEW, stock_level := .IN_STOCK }

/-- A sample database holding just `sampleRow`. -/
def sampleDB : DB := ⟨[sampleRow], 2⟩

/-! ## Claims -/

/-- C5: for every enum value `c`, `find_by_condition` (queried with the
string the route passes) returns exactly the stored items whose
condition equals `c`: every returned item has condition `c`, and every
stored item with condition `c` is returned. -/
theorem find_by_condition_exact (db : DB) (c : Condition) (r : Row) :
    r ∈ db.find_by_condition c.value ↔ r ∈ db.rows ∧ r.condition = c := by
  unfold DB.find_by_condition
  rw [List.mem_filter]
  constructor
  · rintro ⟨hm, hc⟩
    exact ⟨hm, condition_value_inj (by simpa using hc)⟩
  · rintro ⟨hm, hc⟩
    exact ⟨hm, by simp [hc]⟩

/-- C7: a quantity-range query (`find_by_quantity_range`, modelled from
the spec because the method is missing from `models.py`) returns
exactly the stored items whose quantity `q` satisfies `min ≤ q ≤ max`. -/
theorem find_by_quantity_range_exact (db : DB) (minq maxq : Int) (r : Row) :
    r ∈ db.find_by_quantity_range minq (some maxq) ↔
      r ∈ db.rows ∧ minq ≤ r.quantity ∧ r.quantity ≤ maxq := by
  unfold DB.find_by_quantity_range
  rw [List.mem_filter]
  simp [Option.all]

/-- C9: when the persistence layer's commit fails during a write
(create, update with a nonempty id, delete), the session is rolled
back — the stored state afterwards is exactly the state before — and
the error is re-raised as a `DataValidationError`. -/
theorem write_failure_rolls_back (db : DB) (r : Row) :
    db.create r false = ⟨db, some dbErrorMsg⟩ ∧
    (r.id ≠ 0 → db.update r false = ⟨db, some dbErrorMsg⟩) ∧
    db.delete r false = ⟨db, some dbErrorMsg⟩ := by
  refine ⟨rfl, ?_, rfl⟩
  intro h
  have hb : (r.id == 0) = false := by simpa using h
  simp [DB.update, hb]

/-- Witness for C9 at a concrete database and row. -/
theorem write_failure_rolls_back_witness :
    DB.update sampleDB sampleRow false = ⟨sampleDB, some dbErrorMsg⟩ :=
  (write_failure_rolls_back sampleDB sampleRow).2.1 (by decide)

/-- C10: the delete route is total and idempotent: it replies 204
whether or not the id is present, afterwards no row with that id is
stored, and a second delete of the same id has the same response and
effect as the first. -/
theorem delete_route_idempotent (db : DB) (i : Int) :
    (deleteRoute db i true).1.code = 204 ∧
    ((deleteRoute db i true).2).find i = none ∧
    deleteRoute ((deleteRoute db i true).2) i true =
      ((deleteRoute db i true).1, (deleteRoute db i true).2) := by
  cases hfind : db.find i with
  | none =>
    have h1 : deleteRoute db i true = (.ok (.str "") 204, db) := by
      simp [deleteRoute, hfind]
    refine ⟨by rw [h1]; rfl, by rw [h1]; exact hfind, ?_⟩
    rw [h1]
    exact h1
  | some inv =>
    have hf' : db.rows.find? (fun r => r.id == i) = some inv := hfind
    have hid' : inv.id = i := by simpa using List.find?_some hf'
    have h1 : deleteRoute db i true =
        (.ok (.str "") 204,
         { db with rows := db.rows.filter (fun r => !(r.id == inv.id)) }) := by
      simp [deleteRoute, hfind, DB.delete]
    have hafter :
        ({ db with rows := db.rows.filter (fun r => !(r.id == inv.id)) } : DB).find i
          = none := by
      show (db.rows.filter (fun r => !(r.id == inv.id))).find?
        (fun r => r.id == i) = none
      rw [hid']
      exact find?_filter_id_none db.rows i
    have h2 : deleteRoute
        ({ db with rows := db.rows.filter (fun r => !(r.id == inv.id)) }) i true =
        (.ok (.str "") 204,
         { db with rows := db.rows.filter (fun r => !(r.id == inv.id)) }) := by
      simp [deleteRoute, hafter]
    refine ⟨by rw [h1]; rfl, by rw [h1]; exact hafter, ?_⟩
    rw [h1]
    exact h2

/-- C8 (code behavior at the claim's failing input): deleting an id
that has no stored item replies 204, not 404, leaving the store
unchanged — the route's own test `test_delete_inventory_not_found`
expects 404 here. -/
theorem delete_absent_replies_204 :
    deleteRoute ⟨[], 1⟩ 9999 true = (.ok (.str "") 204, ⟨[], 1⟩) ∧
    (204 : Nat) ≠ 404 := by
  exact ⟨rfl, by decide⟩

/-- C1: for a stored item and an integer delta, restocking with
`quantity + delta >= 0` replies 200 with the updated record and the
stored quantity becomes exactly `quantity + delta`; with
`quantity + delta < 0` it aborts with 400 and the store is unchanged.
The hypothesis `row.id ≠ 0` reflects that the persistence layer never
assigns the falsy id 0 (the update guard would reject it). -/
theorem restock_guarded_update (db : DB) (i delta : Int) (row : Row)
    (hfind : db.find i = some row) (hid : row.id ≠ 0) :
    (0 ≤ row.quantity + delta →
      (restockPut db i delta true).1 =
        .ok (Row.serialize { row with quantity := row.quantity + delta }) 200 ∧
      ((restockPut db i delta true).2).find i =
        some { row with quantity := row.quantity + delta }) ∧
    (row.quantity + delta < 0 →
      restockPut db i delta true = (.aborted 400, db)) := by
  constructor
  · intro hpos
    have hneg : ¬(row.quantity + delta < 0) := not_lt.mpr hpos
    have hid0 : (row.id == 0) = false := by simpa using hid
    have hres : restockPut db i delta true =
        (.ok (Row.serialize { row with quantity := row.quantity + delta }) 200,
         { db with rows := db.rows.map (fun r => if r.id == row.id then { row with quantity := row.quantity + delta } else r) }) := by
      simp [restockPut, hfind, hneg, DB.update, hid0]
    rw [hres]
    refine ⟨rfl, ?_⟩
    exact find?_map_replace db.rows i row _ hfind rfl
  · intro hneg
    simp [restockPut, hfind, hneg]

/-- Witness for C1 at a concrete database: both the successful branch
(restock by 5) and the guarded branch (restock by -15). -/
theorem restock_guarded_update_witness :
    ((restockPut sampleDB 1 5 true).1 =
      .ok (Row.serialize { sampleRow with quantity := 15 }) 200 ∧
     ((restockPut sampleDB 1 5 true).2).find 1 =
      some { sampleRow with quantity := 15 }) ∧
    restockPut sampleDB 1 (-15) true = (.aborted 400, sampleDB) := by
  refine ⟨?_, ?_⟩
  · exact (restock_guarded_update sampleDB 1 5 sampleRow rfl (by decide)).1 (by decide)
  · exact (restock_guarded_update sampleDB 1 (-15) sampleRow rfl (by decide)).2 (by decide)

/-- C6: the list route applies exactly one filter criterion, in the
priority order name, quantity range, condition, stock level: a truthy
`name` wins over every other parameter; either truthy quantity bound
selects the quantity-range filter whatever `condition`/`stock_level`
say (an unparseable bound escapes as an uncaught `ValueError`: no
filter at all); `condition` then shadows `stock_level`; and with no
parameters the route lists every stored item. -/
theorem list_filter_priority (db : DB) (p : ListParams) :
    (truthy p.name = true →
      listRoute db p = some (db.find_by_name (p.name.getD ""))) ∧
    (truthy p.name = false → truthy p.quantity_min = true →
      truthy p.quantity_max = true →
      ∀ lo hi, pyInt (p.quantity_min.getD "") = some lo →
      pyInt (p.quantity_max.getD "") = some hi →
      listRoute db p = some (db.find_by_quantity_range lo (some hi))) ∧
    (truthy p.name = false → truthy p.quantity_min = true →
      truthy p.quantity_max = false →
      ∀ lo, pyInt (p.quantity_min.getD "") = some lo →
      listRoute db p = some (db.find_by_quantity_range lo none)) ∧
    (truthy p.name = false → truthy p.quantity_min = false →
      truthy p.quantity_max = true →
      ∀ hi, pyInt (p.quantity_max.getD "") = some hi →
      listRoute db p = some (db.find_by_quantity_range 0 (some hi))) ∧
    (truthy p.name = false →
      ((truthy p.quantity_min = true ∧ pyInt (p.quantity_min.getD "") = none) ∨
       (truthy p.quantity_max = true ∧ pyInt (p.quantity_max.getD "") = none)) →
      listRoute db p = none) ∧
    (truthy p.name = false → truthy p.quantity_min = false →
      truthy p.quantity_max = false → truthy p.condition = true →
      listRoute db p = some (db.find_by_condition (p.condition.getD ""))) ∧
    (truthy p.name = false → truthy p.quantity_min = false →
      truthy p.quantity_max = false → truthy p.condition = false →
      truthy p.stock_level = true →
      listRoute db p = some (db.find_by_stock_level (p.stock_level.getD ""))) ∧
    (truthy p.name = false → truthy p.quantity_min = false →
      truthy p.quantity_max = false → truthy p.condition = false →
      truthy p.stock_level = false →
      listRoute db p = some db.all) := by
  refine ⟨?_, ?_, ?_, ?_, ?_, ?_, ?_, ?_⟩
  · intro hn
    simp [listRoute, hn]
  · intro hn hqm hqM lo hi hlo hhi
    simp [listRoute, hn, hqm, hqM, hlo, hhi]
  · intro hn hqm hqM lo hlo
    simp [listRoute, hn, hqm, hqM, hlo]
  · intro hn hqm hqM hi hhi
    simp [listRoute, hn, hqm, hqM, hhi]
  · intro hn hbad
    rcases hbad with ⟨hqm, hlo⟩ | ⟨hqM, hhi⟩
    · cases hqMt : truthy p.quantity_max with
      | false => simp [listRoute, hn, hqm, hqMt, hlo]
      | true =>
        cases hhiv : pyInt (p.quantity_max.getD "") with
        | none => simp [listRoute, hn, hqm, hqMt, hlo, hhiv]
        | some hi => simp [listRoute, hn, hqm, hqMt, hlo, hhiv]
    · cases hqmt : truthy p.quantity_min with
      | false => simp [listRoute, hn, hqmt, hqM, hhi]
      | true =>
        cases hlov : pyInt (p.quantity_min.getD "") with
        | none => simp [listRoute, hn, hqmt, hqM, hlov, hhi]
        | some lo => simp [listRoute, hn, hqmt, hqM, hlov, hhi]
  · intro hn hqm hqM hc
    simp [listRoute, hn, hqm, hqM, hc]
  · intro hn hqm hqM hc hs
    simp [listRoute, hn, hqm, hqM, hc, hs]
  · intro hn hqm hqM hc hs
    simp [listRoute, hn, hqm, hqM, hc, hs]

/-- Witness for C6: with every filter parameter supplied, only the name
filter is applied; without a name but with quantity bounds and a
condition supplied, only the quantity-range filter is applied; and
with no parameters the whole store is listed. -/
theorem list_filter_priority_witness :
    listRoute sampleDB
      ⟨some "Widget", some "1", some "20", some "NEW", some "IN_STOCK"⟩ =
      some (sampleDB.find_by_name "Widget") ∧
    listRoute sampleDB ⟨none, some "1", some "20", some "NEW", some "IN_STOCK"⟩ =
      some (sampleDB.find_by_quantity_range 1 (some 20)) ∧
    listRoute sampleDB ⟨none, none, some "20", some "NEW", none⟩ =
      some (sampleDB.find_by_quantity_range 0 (some 20)) ∧
    listRoute sampleDB ⟨none, none, none, none, none⟩ = some sampleDB.all := by
  refine ⟨?_, ?_, ?_, ?_⟩
  · exact (list_filter_priority sampleDB
      ⟨some "Widget", some "1", some "20", some "NEW", some "IN_STOCK"⟩).1 rfl
  · exact (list_filter_priority sampleDB
      ⟨none, some "1", some "20", some "NEW", some "IN_STOCK"⟩).2.1
      rfl rfl rfl 1 20 (by rfl) (by rfl)
  · exact (list_filter_priority sampleDB
      ⟨none, none, some "20", some "NEW", none⟩).2.2.2.1 rfl rfl rfl 20 (by rfl)
  · exact (list_filter_priority sampleDB
      ⟨none, none, none, none, none⟩).2.2.2.2.2.2.2 rfl rfl rfl rfl rfl

/-- Subscripting raises `TypeError` exactly on non-mappings. -/
lemma getItem_typeError_iff {d : JValue} {k : String} :
    d.getItem k = .typeError ↔ d.isObj = false := by
  cases d <;> simp [JValue.getItem, JValue.isObj]
  case obj fields =>
    cases hl : fields.lookup k <;> simp [hl]

/-- A `KeyError` raised by subscripting carries the queried key. -/
lemma getItem_keyError_eq {d : JValue} {k k' : String}
    (h : d.getItem k = .keyError k') : k' = k := by
  cases d <;> simp [JValue.getItem] at h
  case obj fields =>
    cases hl : fields.lookup k <;> simp [hl] at h
    exact h.symm

/-- A successful subscript means the payload is a mapping. -/
lemma getItem_ok_isObj {d : JValue} {k : String} {v : JValue}
    (h : d.getItem k = .ok v) : d.isObj = true := by
  cases d <;> simp [JValue.getItem, JValue.isObj] at h ⊢

/-- On a mapping, subscripting either succeeds or raises `KeyError`
with the queried key. -/
lemma getItem_obj_total (fields : List (String × JValue)) (k : String) :
    (∃ v, (JValue.obj fields).getItem k = .ok v) ∨
      (JValue.obj fields).getItem k = .keyError k := by
  cases hl : fields.lookup k <;> simp [JValue.getItem, hl]

/-- Characterization of successful deserialization: all four required
keys present, `quantity` an `isinstance(_, int)` value, and the two
enum fields members of their enumerations. -/
lemma deserialize_ok_iff (self : PyInventory) (d : JValue) :
    (∃ item, self.deserialize d = .ok item) ↔
      ((∃ nv, d.getItem "name" = .ok nv) ∧
       (∃ qv, d.getItem "quantity" = .ok qv ∧ qv.isPyInt = true) ∧
       (∃ cv c, d.getItem "condition" = .ok cv ∧
         Condition.fromValue cv = some c) ∧
       (∃ sv sl, d.getItem "stock_level" = .ok sv ∧
         StockLevel.fromValue sv = some sl)) := by
  cases hn : d.getItem "name" with
  | typeError => simp [PyInventory.deserialize, hn]
  | keyError k => simp [PyInventory.deserialize, hn]
  | ok nv =>
    cases hq : d.getItem "quantity" with
    | typeError => simp [PyInventory.deserialize, hn, hq]
    | keyError k => simp [PyInventory.deserialize, hn, hq]
    | ok qv =>
      cases hqi : qv.isPyInt with
      | false => simp [PyInventory.deserialize, hn, hq, hqi]
      | true =>
        cases hc : d.getItem "condition" with
        | typeError => simp [PyInventory.deserialize, hn, hq, hqi, hc]
        | keyError k => simp [PyInventory.deserialize, hn, hq, hqi, hc]
        | ok cv =>
          cases hfc : Condition.fromValue cv with
          | none => simp [PyInventory.deserialize, hn, hq, hqi, hc, hfc]
          | some c =>
            cases hs : d.getItem "stock_level" with
            | typeError =>
              simp [PyInventory.deserialize, hn, hq, hqi, hc, hfc, hs]
            | keyError k =>
              simp [PyInventory.deserialize, hn, hq, hqi, hc, hfc, hs]
            | ok sv =>
              cases hfs : StockLevel.fromValue sv with
              | none =>
                simp [PyInventory.deserialize, hn, hq, hqi, hc, hfc, hs, hfs]
              | some sl =>
                simp [PyInventory.deserialize, hn, hq, hqi, hc, hfc, hs, hfs]

/-- C2: for a valid payload (name present, genuine integer quantity,
enum-member condition and stock level), serializing the deserialized
item reproduces the payload's semantic content: the same name and
quantity, and the condition and stock level emitted as the very
strings the payload carried. -/
theorem serialize_deserialize_roundtrip (self : PyInventory) (d : JValue)
    (nv qv cv sv : JValue)
    (hn : d.getItem "name" = .ok nv)
    (hq : d.getItem "quantity" = .ok qv) (hqi : qv.isIntValue = true)
    (hc : d.getItem "condition" = .ok cv)
    (hcm : ∃ c, Condition.fromValue cv = some c)
    (hs : d.getItem "stock_level" = .ok sv)
    (hsm : ∃ sl, StockLevel.fromValue sv = some sl) :
    ∃ item, self.deserialize d = .ok item ∧
      item.serialize.getItem "name" = .ok nv ∧
      item.serialize.getItem "quantity" = .ok qv ∧
      item.serialize.getItem "condition" = .ok cv ∧
      item.serialize.getItem "stock_level" = .ok sv := by
  obtain ⟨c, hfc⟩ := hcm
  obtain ⟨sl, hfs⟩ := hsm
  obtain ⟨n, rfl⟩ : ∃ n, qv = .int n := by
    cases qv <;> simp [JValue.isIntValue] at hqi
    exact ⟨_, rfl⟩
  have hqpi : (JValue.int n).isPyInt = true := rfl
  refine ⟨{ self with name := nv, quantity := n, condition := c, stock_level := sl }, ?_, ?_, ?_, ?_, ?_⟩
  · simp [PyInventory.deserialize, hn, hq, hqpi, hc, hfc, hs, hfs,
      JValue.pyIntVal]
  · rfl
  · rfl
  · rw [condition_fromValue_str hfc]
    rfl
  · rw [stock_level_fromValue_str hfs]
    rfl

/-- Witness for C2 at the spec's concrete Widget payload. -/
theorem serialize_deserialize_roundtrip_witness :
    ∃ item,
      ({} : PyInventory).deserialize
        (.obj [("name", .str "Widget"), ("quantity", .int 10),
               ("condition", .str "NEW"), ("stock_level", .str "IN_STOCK")]) =
        .ok item ∧
      item.serialize.getItem "name" = .ok (.str "Widget") ∧
      item.serialize.getItem "quantity" = .ok (.int 10) ∧
      item.serialize.getItem "condition" = .ok (.str "NEW") ∧
      item.serialize.getItem "stock_level" = .ok (.str "IN_STOCK") :=
  serialize_deserialize_roundtrip {}
    (.obj [("name", .str "Widget"), ("quantity", .int 10),
           ("condition", .str "NEW"), ("stock_level", .str "IN_STOCK")])
    (.str "Widget") (.int 10) (.str "NEW") (.str "IN_STOCK")
    rfl rfl rfl rfl ⟨.NEW, rfl⟩ rfl ⟨.IN_STOCK, rfl⟩

/-- The required payload keys, in the order `deserialize` reads them. -/
def requiredKeys : List String := ["name", "quantity", "condition", "stock_level"]

/-- C3 counterexample: the payload whose `quantity` is the Boolean
`true` — not an integer — is nevertheless deserialized successfully,
because Python's `bool` is a subclass of `int` and so passes
`isinstance(data["quantity"], int)`. The claim's "fails if `quantity`
is not an integer" direction is therefore false. -/
theorem deserialize_accepts_bool_quantity :
    ({} : PyInventory).deserialize
      (.obj [("name", .str "Widget"), ("quantity", .bool true),
             ("condition", .str "NEW"), ("stock_level", .str "IN_STOCK")]) =
      .ok { name := .str "Widget", quantity := 1,
            condition := .NEW, stock_level := .IN_STOCK } ∧
    (JValue.obj [("name", .str "Widget"), ("quantity", .bool true),
       ("condition", .str "NEW"), ("stock_level", .str "IN_STOCK")]).getItem
        "quantity" = .ok (.bool true) ∧
    (JValue.bool true).isIntValue = false :=
  ⟨rfl, rfl, rfl⟩

/-- C3 (amended): `deserialize` fails with a validation error if and
only if a required key is missing, `quantity` fails the
`isinstance(_, int)` check (Booleans count as integers, since Python
`bool` subclasses `int`), `condition` or `stock_level` is not a member
of its enumeration, or the payload is not a mapping; and a missing
required key produces the message naming that key. -/
theorem deserialize_validation (self : PyInventory) (d : JValue) :
    ((∃ msg, self.deserialize d = .error msg) ↔
      (d.isObj = false ∨
       (∃ k, k ∈ requiredKeys ∧ d.getItem k = .keyError k) ∨
       (∃ v, d.getItem "quantity" = .ok v ∧ v.isPyInt = false) ∨
       (∃ v, d.getItem "condition" = .ok v ∧ Condition.fromValue v = none) ∨
       (∃ v, d.getItem "stock_level" = .ok v ∧
         StockLevel.fromValue v = none))) ∧
    (d.getItem "name" = .keyError "name" →
      self.deserialize d = .error "Invalid Inventory: missing name") ∧
    (∀ nv, d.getItem "name" = .ok nv →
      d.getItem "quantity" = .keyError "quantity" →
      self.deserialize d = .error "Invalid Inventory: missing quantity") ∧
    (∀ nv qv, d.getItem "name" = .ok nv → d.getItem "quantity" = .ok qv →
      qv.isPyInt = true → d.getItem "condition" = .keyError "condition" →
      self.deserialize d = .error "Invalid Inventory: missing condition") ∧
    (∀ nv qv cv c, d.getItem "name" = .ok nv →
      d.getItem "quantity" = .ok qv → qv.isPyInt = true →
      d.getItem "condition" = .ok cv → Condition.fromValue cv = some c →
      d.getItem "stock_level" = .keyError "stock_level" →
      self.deserialize d = .error "Invalid Inventory: missing stock_level") := by
  refine ⟨?_, ?_, ?_, ?_, ?_⟩
  · -- the failure characterization
    have htot : (∃ msg, self.deserialize d = .error msg) ↔
        ¬(∃ item, self.deserialize d = .ok item) := by
      cases hdes : self.deserialize d <;> simp
    rw [htot, deserialize_ok_iff]
    by_cases hobj : d.isObj = true
    · obtain ⟨fields, rfl⟩ : ∃ fields, d = .obj fields := by
        cases d <;> simp [JValue.isObj] at hobj ⊢
      constructor
      · intro hfail
        by_contra hrhs
        push_neg at hrhs
        obtain ⟨h1, h2, h3, h4, h5⟩ := hrhs
        apply hfail
        have hnO := getItem_obj_total fields "name"
        have hqO := getItem_obj_total fields "quantity"
        have hcO := getItem_obj_total fields "condition"
        have hsO := getItem_obj_total fields "stock_level"
        rcases hnO with hnOk | hnKE
        swap
        · exact absurd hnKE (h2 "name" (by simp [requiredKeys]))
        rcases hqO with ⟨qv, hqOk⟩ | hqKE
        swap
        · exact absurd hqKE (h2 "quantity" (by simp [requiredKeys]))
        rcases hcO with ⟨cv, hcOk⟩ | hcKE
        swap
        · exact absurd hcKE (h2 "condition" (by simp [requiredKeys]))
        rcases hsO with ⟨sv, hsOk⟩ | hsKE
        swap
        · exact absurd hsKE (h2 "stock_level" (by simp [requiredKeys]))
        have hq3 : qv.isPyInt = true := by
          have := h3 qv hqOk
          cases hpi : qv.isPyInt with
          | true => rfl
          | false => exact absurd hpi this
        have hc3 : ∃ c, Condition.fromValue cv = some c := by
          have := h4 cv hcOk
          cases hfc : Condition.fromValue cv with
          | some c => exact ⟨c, rfl⟩
          | none => exact absurd hfc this
        have hs3 : ∃ sl, StockLevel.fromValue sv = some sl := by
          have := h5 sv hsOk
          cases hfs : StockLevel.fromValue sv with
          | some sl => exact ⟨sl, rfl⟩
          | none => exact absurd hfs this
        obtain ⟨c, hfc⟩ := hc3
        obtain ⟨sl, hfs⟩ := hs3
        exact ⟨hnOk, ⟨qv, hqOk, hq3⟩, ⟨cv, c, hcOk, hfc⟩, ⟨sv, sl, hsOk, hfs⟩⟩
      · intro hrhs hok
        obtain ⟨⟨nv, hn⟩, ⟨qv, hq, hqi⟩, ⟨cv, c, hc, hfc⟩, ⟨sv, sl, hs, hfs⟩⟩ :=
          hok
        rcases hrhs with h | ⟨k, hk, hke⟩ | ⟨v, hv, hvi⟩ | ⟨v, hv, hvn⟩ |
          ⟨v, hv, hvn⟩
        · simp [JValue.isObj] at h
        · simp only [requiredKeys, List.mem_cons, List.mem_singleton] at hk
          rcases hk with rfl | rfl | rfl | hk
          · rw [hn] at hke; cases hke
          · rw [hq] at hke; cases hke
          · rw [hc] at hke; cases hke
          · simp at hk
            subst hk
            rw [hs] at hke; cases hke
        · rw [hq] at hv; cases hv
          rw [hqi] at hvi; cases hvi
        · rw [hc] at hv; cases hv
          rw [hfc] at hvn; cases hvn
        · rw [hs] at hv; cases hv
          rw [hfs] at hvn; cases hvn
    · have hobj' : d.isObj = false := by
        cases h : d.isObj with
        | true => exact absurd h hobj
        | false => rfl
      have hte : d.getItem "name" = .typeError := getItem_typeError_iff.mpr hobj'
      constructor
      · intro _
        exact Or.inl hobj'
      · intro _ hok
        obtain ⟨⟨nv, hn⟩, _, _, _⟩ := hok
        rw [hte] at hn
        cases hn
  · intro h
    simp [PyInventory.deserialize, h]
  · intro nv hn h
    simp [PyInventory.deserialize, hn, h]
  · intro nv qv hn hq hqi h
    simp [PyInventory.deserialize, hn, hq, hqi, h]
  · intro nv qv cv c hn hq hqi hc hfc h
    simp [PyInventory.deserialize, hn, hq, hqi, hc, hfc, h]

/-- Witness for C3 (amended) at a concrete payload omitting `quantity`:
the error message names the missing key. -/
theorem deserialize_validation_witness :
    ({} : PyInventory).deserialize
      (.obj [("name", .str "Widget"), ("condition", .str "NEW"),
             ("stock_level", .str "IN_STOCK")]) =
      .error "Invalid Inventory: missing quantity" :=
  (deserialize_validation {}
    (.obj [("name", .str "Widget"), ("condition", .str "NEW"),
           ("stock_level", .str "IN_STOCK")])).2.2.1 (.str "Widget") rfl rfl

/-- The allowed stored strings for `condition`. -/
def condValues : List String := ["NEW", "OPENBOX", "USED"]

/-- The allowed stored strings for `stock_level`. -/
def stockValues : List String := ["IN_STOCK", "LOW_STOCK", "OUT_OF_STOCK"]

/-- A stored row whose enum columns hold allowed values only. -/
def validRow (r : Row) : Prop :=
  r.condition.value ∈ condValues ∧ r.stock_level.value ∈ stockValues

/-- A database state in which every stored row is valid. -/
def validDB (s : DB) : Prop := ∀ r ∈ s.rows, validRow r

/-- An operation of the service acting on the stored state. -/
inductive Op
  | create (item : Row) (commitOk : Bool)
  | update (item : Row) (commitOk : Bool)
  | restock (i : Int) (delta : Int) (commitOk : Bool)
  | del (i : Int) (commitOk : Bool)

/-- The stored state after one operation. -/
def applyOp (s : DB) : Op → DB
  | .create item ok => (s.create item ok).db
  | .update item ok => (s.update item ok).db
  | .restock i delta ok => (restockPut s i delta ok).2
  | .del i ok => (deleteRoute s i ok).2

/-- The stored state after a sequence of operations. -/
def applyOps (s : DB) : List Op → DB
  | [] => s
  | op :: rest => applyOps (applyOp s op) rest

/-- Every value of the typed `condition` column is an allowed string. -/
lemma condition_value_mem (c : Condition) : c.value ∈ condValues := by
  cases c <;> simp [Condition.value, condValues]

/-- Every value of the typed `stock_level` column is an allowed string. -/
lemma stock_level_value_mem (sl : StockLevel) : sl.value ∈ stockValues := by
  cases sl <;> simp [StockLevel.value, stockValues]

/-- C4: `condition` and `stock_level` are always members of their
enumerations. At the boundary, a successfully deserialized item
carries member values only, and a payload whose `condition` or
`stock_level` is not a member is rejected with a validation error —
it is never stored. In the store, after any sequence of operations
every row's enum columns hold allowed values. -/
theorem enum_fields_always_valid (self : PyInventory) (d : JValue) :
    (∀ item, self.deserialize d = .ok item →
      item.condition.value ∈ condValues ∧
      item.stock_level.value ∈ stockValues) ∧
    (∀ v, d.getItem "condition" = .ok v → Condition.fromValue v = none →
      ∃ msg, self.deserialize d = .error msg) ∧
    (∀ v, d.getItem "stock_level" = .ok v → StockLevel.fromValue v = none →
      ∃ msg, self.deserialize d = .error msg) ∧
    (∀ (ops : List Op) (s : DB), validDB (applyOps s ops)) := by
  refine ⟨?_, ?_, ?_, ?_⟩
  · intro item _
    exact ⟨condition_value_mem item.condition,
      stock_level_value_mem item.stock_level⟩
  · intro v hv hnone
    cases hdes : self.deserialize d with
    | error msg => exact ⟨msg, rfl⟩
    | ok item =>
      obtain ⟨_, _, ⟨cv, c, hc, hfc⟩, _⟩ :=
        (deserialize_ok_iff self d).mp ⟨item, hdes⟩
      rw [hv] at hc
      cases hc
      rw [hnone] at hfc
      cases hfc
  · intro v hv hnone
    cases hdes : self.deserialize d with
    | error msg => exact ⟨msg, rfl⟩
    | ok item =>
      obtain ⟨_, _, _, ⟨sv, sl, hs, hfs⟩⟩ :=
        (deserialize_ok_iff self d).mp ⟨item, hdes⟩
      rw [hv] at hs
      cases hs
      rw [hnone] at hfs
      cases hfs
  · intro ops s r _
    exact ⟨condition_value_mem r.condition, stock_level_value_mem r.stock_level⟩

/-- Witness for C4: the payload carrying the non-member condition
"BROKEN" is rejected by `deserialize`. -/
theorem enum_fields_always_valid_witness :
    ∃ msg, ({} : PyInventory).deserialize
      (.obj [("name", .str "Widget"), ("quantity", .int 10),
             ("condition", .str "BROKEN"), ("stock_level", .str "IN_STOCK")]) =
      .error msg :=
  (enum_fields_always_valid {}
    (.obj [("name", .str "Widget"), ("quantity", .int 10),
           ("condition", .str "BROKEN"), ("stock_level", .str "IN_STOCK")])).2.1
    (.str "BROKEN") rfl rfl

/-! ## Wellformedness: stored ids are never the falsy 0

The persistence layer assigns ids from a positive counter, so no
stored row ever carries the Python-falsy id 0 that the `update` guard
rejects. This justifies the `row.id ≠ 0` hypotheses of the restock and
rollback theorems: they hold for every item the service ever stores. -/

/-- A wellformed state: the id counter is positive and no stored row
has id 0. -/
def wfDB (s : DB) : Prop :=
  1 ≤ s.nextId ∧ ∀ r ∈ s.rows, r.id ≠ 0

/-- An update commit preserves wellformedness when the written row has
a nonzero id. -/
lemma update_db_wf (s : DB) (item : Row) (ok : Bool) (h : wfDB s)
    (hid : item.id ≠ 0) : wfDB (s.update item ok).db := by
  have hii : (item.id == 0) = false := by simpa using hid
  cases ok with
  | false =>
    have hdb : (s.update item false).db = s := by simp [DB.update, hii]
    rw [hdb]
    exact h
  | true =>
    have hdb : (s.update item true).db = { s with rows := s.rows.map (fun r => if r.id == item.id then item else r) } := by
      simp [DB.update, hii]
    rw [hdb]
    refine ⟨h.1, ?_⟩
    intro r hr
    rw [List.mem_map] at hr
    obtain ⟨a, ha, rfl⟩ := hr
    by_cases hai : (a.id == item.id) = true
    · rw [if_pos hai]
      exact hid
    · rw [if_neg hai]
      exact h.2 a ha

/-- Every service operation preserves wellformedness. -/
lemma applyOp_wf (s : DB) (op : Op) (h : wfDB s) : wfDB (applyOp s op) := by
  cases op with
  | create item ok =>
    cases ok with
    | false => exact h
    | true =>
      have hdb : applyOp s (.create item true) =
          ⟨s.rows ++ [{ item with id := s.nextId }], s.nextId + 1⟩ := rfl
      rw [hdb]
      constructor
      · show 1 ≤ s.nextId + 1
        have := h.1
        omega
      · intro r hr
        have hr' : r ∈ s.rows ++ [{ item with id := s.nextId }] := hr
        rw [List.mem_append] at hr'
        rcases hr' with hr' | hr'
        · exact h.2 r hr'
        · rw [List.mem_singleton] at hr'
          subst hr'
          show s.nextId ≠ 0
          have := h.1
          omega
  | update item ok =>
    by_cases hii : item.id = 0
    · have hb : (item.id == 0) = true := by simpa using hii
      simp only [applyOp, DB.update, hb, if_true]
      exact h
    · exact update_db_wf s item ok h hii
  | restock i delta ok =>
    simp only [applyOp, restockPut]
    cases hf : s.find i with
    | none => exact h
    | some inv =>
      have hinv : inv ∈ s.rows := List.mem_of_find?_eq_some hf
      have hinv0 : inv.id ≠ 0 := h.2 inv hinv
      by_cases hneg : inv.quantity + delta < 0
      · simp only [if_pos hneg]
        exact h
      · simp only [if_neg hneg]
        have hw := update_db_wf s { inv with quantity := inv.quantity + delta }
          ok h hinv0
        cases hraised : (s.update { inv with quantity := inv.quantity + delta }
            ok).raised <;> simpa [hraised] using hw
  | del i ok =>
    simp only [applyOp, deleteRoute]
    cases hf : s.find i with
    | none => exact h
    | some inv =>
      have hdel : wfDB (s.delete inv ok).db := by
        cases ok with
        | false => exact h
        | true =>
          refine ⟨h.1, ?_⟩
          intro r hr
          exact h.2 r (List.mem_filter.mp hr).1
      cases hraised : (s.delete inv ok).raised <;> simpa [hraised] using hdel

/-- Wellformedness is preserved along any operation sequence. -/
lemma applyOps_wf (ops : List Op) (s : DB) (h : wfDB s) :
    wfDB (applyOps s ops) := by
  induction ops generalizing s with
  | nil => exact h
  | cons op rest ih => exact ih (applyOp s op) (applyOp_wf s op h)

/-- In a wellformed state, every item found by id has a nonzero id. -/
lemma wf_found_id_ne_zero {s : DB} {i : Int} {row : Row} (h : wfDB s)
    (hf : s.find i = some row) : row.id ≠ 0 :=
  h.2 row (List.mem_of_find?_eq_some hf)

end Inv
